import Mathlib

/-!
Verification development for the arena allocator of
src/P1/mymalloc.c (the primary implementation; one definition also
covers the initialization behaviour of the older variant
src/project1-mymalloc/mymalloc.c, which differs there).

Embedding conventions:
* The arena is embedded as the chain of chunks obtained by walking
  headers from the arena base (a `List chunk_t`); chunk offsets are byte
  offsets from the base.  The arena base itself is 8-byte aligned (the
  backing store is a union with a `double`), so pointer alignment mod 8
  equals offset alignment mod 8.
* `size_t` values are `Nat` with explicit reduction mod `2 ^ 64` exactly
  where the C arithmetic can overflow (the padding computation pads with
  wraparound, and the chunk-walk address arithmetic).
* Pointers passed to `myfree` are `Option Int`: `none` is the NULL
  pointer, `some p` the byte offset `p` (possibly negative or past the
  end) of the pointer from the arena base.
* Reads of a would-be header at an arbitrary offset are supplied by a
  `read : Int → chunk_t` function; on the chain offsets of a well-formed
  heap this is the chain chunk, elsewhere it models whatever bytes the
  client stored there.
-/

/-- Chunk header, `typedef struct chunk { size_t size; int allocated; } chunk_t;`
(src/P1/mymalloc.c lines 54-57).  `allocated` is 1 or 0 in C, a `Bool` here. -/
structure chunk_t where
  size : Nat
  allocated : Bool
deriving DecidableEq

/-- MEMLENGTH, the arena capacity in bytes (src/P1/mymalloc.c line 37). -/
def MEMLENGTH : Nat := 4096

/-- ALIGNMENT, the payload rounding unit (src/P1/mymalloc.c line 41). -/
def ALIGNMENT : Nat := 8

/-- MIN_CHUNK_SIZE, the minimum total chunk size (src/P1/mymalloc.c line 45). -/
def MIN_CHUNK_SIZE : Nat := 16

/-- HDR is `sizeof(chunk_t)` on an LP64 target: an 8-byte `size_t` plus a
4-byte `int`, padded to 16 by the 8-byte alignment of `size_t`. -/
def HDR : Nat := 16

/-- SIZE_MOD is the modulus of 64-bit `size_t` (and pointer) arithmetic. -/
def SIZE_MOD : Nat := 2 ^ 64

/-- Transcription of `size_t aligned_size = (size + (ALIGNMENT - 1)) & ~(ALIGNMENT - 1);`
(src/P1/mymalloc.c line 165).  The addition is `size_t` addition, hence the
reduction mod `2 ^ 64`; masking a 64-bit value with `~7` clears its low three
bits, i.e. maps `x` to `x / 8 * 8` (the lemma `land_not_seven` below proves
this identity for the bitwise form). -/
def aligned_size (s : Nat) : Nat := ((s + (ALIGNMENT - 1)) % SIZE_MOD) / ALIGNMENT * ALIGNMENT

/-- Transcription of the minimum-payload adjustment
`if (aligned_size < MIN_CHUNK_SIZE - sizeof(chunk_t)) aligned_size = MIN_CHUNK_SIZE - sizeof(chunk_t);`
(src/P1/mymalloc.c lines 169-172).  With `MIN_CHUNK_SIZE = 16` and
`sizeof(chunk_t) = 16` the bound is 0, so the branch is never taken. -/
def padded_size (s : Nat) : Nat :=
  if aligned_size s < MIN_CHUNK_SIZE - HDR then MIN_CHUNK_SIZE - HDR else aligned_size s

/-- Heap is the chain of chunks obtained by walking headers from the arena
base; list order is address order. -/
abbrev Heap := List chunk_t

/-- Total bytes covered by a chain of chunks (each chunk occupies its header
plus its payload). -/
def total_bytes (h : Heap) : Nat := (h.map (fun c => HDR + c.size)).sum

/-- Byte offset (from the arena base) of the header of the chunk at list
index `i` of the chain. -/
def chunk_offset (h : Heap) (i : Nat) : Nat := ((h.take i).map (fun c => HDR + c.size)).sum

/-- Two address-adjacent chunks are not both free. -/
def not_both_free (a b : chunk_t) : Prop := a.allocated = true ∨ b.allocated = true

/-- No two adjacent chunks of the chain are both free. -/
def no_adjacent_free (h : Heap) : Prop := h.Chain' not_both_free

/-- Well-formed arena chain: the chunks tile the whole arena exactly (no
gaps, no overlaps, ending exactly at `base + MEMLENGTH`), every payload size
is a multiple of ALIGNMENT, and no two adjacent chunks are both free. -/
def wf_heap (h : Heap) : Prop :=
  total_bytes h = MEMLENGTH ∧ (∀ c ∈ h, c.size % ALIGNMENT = 0) ∧ no_adjacent_free h

instance not_both_free_dec (a b : chunk_t) : Decidable (not_both_free a b) :=
  inferInstanceAs (Decidable (a.allocated = true ∨ b.allocated = true))

instance no_adjacent_free_dec : ∀ h : Heap, Decidable (no_adjacent_free h)
  | [] => isTrue List.chain'_nil
  | [_] => isTrue (List.chain'_singleton _)
  | a :: b :: rest =>
    match not_both_free_dec a b, no_adjacent_free_dec (b :: rest) with
    | isTrue h1, isTrue h2 => isTrue (List.chain'_cons.mpr ⟨h1, h2⟩)
    | isFalse h1, _ => isFalse (fun hc => h1 (List.chain'_cons.mp hc).1)
    | _, isFalse h2 => isFalse (fun hc => h2 (List.chain'_cons.mp hc).2)

instance wf_heap_dec (h : Heap) : Decidable (wf_heap h) :=
  inferInstanceAs (Decidable (total_bytes h = MEMLENGTH ∧
    (∀ c ∈ h, c.size % ALIGNMENT = 0) ∧ no_adjacent_free h))

/-- Search-and-split loop of `mymalloc` (src/P1/mymalloc.c lines 175-215) on
the chain view: scan in address order; on the first chunk that is free with
`size >= aligned_size`, split it when `size >= aligned_size + sizeof(chunk_t) + MIN_CHUNK_SIZE`
(lines 186-196), mark it allocated, and report its chain index together with
the updated chain; otherwise continue to the next chunk.  Returns `none` when
the scan exhausts the arena (out of memory). -/
def malloc_scan (need : Nat) : Heap → Option (Nat × Heap)
  | [] => none
  | c :: rest =>
    if c.allocated = false ∧ need ≤ c.size then
      if need + HDR + MIN_CHUNK_SIZE ≤ c.size then
        some (0, ⟨need, true⟩ :: ⟨c.size - need - HDR, false⟩ :: rest)
      else
        some (0, ⟨c.size, true⟩ :: rest)
    else
      (malloc_scan need rest).map (fun r => (r.1 + 1, c :: r.2))

/-- Allocator-visible process state: the `initialized` flag (src/P1/mymalloc.c
line 64), whether `atexit(leak_detection)` has been registered (line 91), and
the arena chain. -/
structure AllocState where
  inited : Bool
  registered : Bool
  heap : Heap
deriving DecidableEq

/-- Before the first call the static arena is zero-initialized; walking
headers over all-zero bytes reads `MEMLENGTH / HDR` headers of size 0,
each marked free. -/
def uninit_state : AllocState :=
  ⟨false, false, List.replicate (MEMLENGTH / HDR) ⟨0, false⟩⟩

/-- Transcription of `initialize_heap` (src/P1/mymalloc.c lines 83-93): write
a single free header of size `MEMLENGTH - sizeof(chunk_t)` at the base (the
chain view then consists of that one chunk), set `initialized`, and register
`leak_detection` with `atexit`. -/
def init_heap (_st : AllocState) : AllocState :=
  ⟨true, true, [⟨MEMLENGTH - HDR, false⟩]⟩

/-- Transcription of `mymalloc` (src/P1/mymalloc.c lines 150-221): initialize
the arena if needed, fail on a zero-size request, pad the size, then run the
first-fit search; on success return the payload offset (header offset plus
`sizeof(chunk_t)`). -/
def mymalloc (s : Nat) (st : AllocState) : Option Nat × AllocState :=
  let st1 := if st.inited then st else init_heap st
  if s = 0 then (none, st1)
  else
    match malloc_scan (padded_size s) st1.heap with
    | none => (none, st1)
    | some (i, h2) => (some (chunk_offset st1.heap i + HDR), { st1 with heap := h2 })

/-- Outcome of a `myfree` call: return normally on NULL (`noop`), terminate
the process via `exit code` (`fatal`), or mark-and-coalesce (`ok`). -/
inductive FreeOutcome where
  | noop
  | fatal (code : Nat)
  | ok
deriving DecidableEq

/-- Validation phase of `myfree` (src/P1/mymalloc.c lines 223-262): NULL is a
no-op; a pointer below the base or at/after the arena end exits with code 2;
a pointer misaligned w.r.t. ALIGNMENT exits with code 2; the presumed header
at `ptr - sizeof(chunk_t)` must lie at or after the base, its size must be
nonzero, a multiple of ALIGNMENT, and `header + sizeof(chunk_t) + size` must
not exceed the arena end, else exit with code 2; a chunk already marked free
exits with code 2 (double free). -/
def myfree_check (ptr : Option Int) (read : Int → chunk_t) : FreeOutcome :=
  match ptr with
  | none => .noop
  | some p =>
    if p < 0 ∨ (MEMLENGTH : Int) ≤ p then .fatal 2
    else if p % (ALIGNMENT : Int) ≠ 0 then .fatal 2
    else
      let hdr := read (p - HDR)
      if p - HDR < 0 ∨ (MEMLENGTH : Int) < (p - HDR) + HDR + hdr.size ∨
          hdr.size = 0 ∨ hdr.size % ALIGNMENT ≠ 0 then .fatal 2
      else if hdr.allocated = false then .fatal 2
      else .ok

/-- Mark-free and forward-coalescing phase of `myfree` (src/P1/mymalloc.c
lines 264-279): mark the chunk `c` free; if the immediately following chunk
lies within the arena (i.e. `post` is nonempty) and is free, absorb it
(`chunk->size += sizeof(chunk_t) + next->size`).  Returns the updated chunk
and the chunks after it. -/
def free_fwd (c : chunk_t) (post : Heap) : chunk_t × Heap :=
  match post with
  | [] => (⟨c.size, false⟩, [])
  | n :: rest =>
    if n.allocated = false then (⟨c.size + HDR + n.size, false⟩, rest)
    else (⟨c.size, false⟩, n :: rest)

/-- Backward-coalescing phase (src/P1/mymalloc.c lines 283-311): the
predecessor found by the rescan is the last chunk of `pre`; if it exists and
is free, the freed chunk `c1` (already forward-coalesced) is absorbed into
it (`prev->size += sizeof(chunk_t) + chunk->size`). -/
def free_back (pre : Heap) (c1 : chunk_t) (post1 : Heap) : Heap :=
  match pre.getLast? with
  | some p =>
    if p.allocated = false then
      pre.dropLast ++ ⟨p.size + HDR + c1.size, false⟩ :: post1
    else pre ++ c1 :: post1
  | none => c1 :: post1

/-- Whole mutation phase of `myfree` (src/P1/mymalloc.c lines 264-311) on
the chain view, at the chunk `c` whose chain decomposition is
`pre ++ c :: post`: mark free and coalesce forward, then coalesce backward. -/
def free_chunk (pre : Heap) (c : chunk_t) (post : Heap) : Heap :=
  free_back pre (free_fwd c post).1 (free_fwd c post).2

/-- Decompose a chain at the chunk whose header offset (bytes from the arena
base) is `a`, if `a` is a chain header offset: returns the chunks before it,
the chunk itself, and the chunks after it. -/
def split_at_off : Heap → Int → Option (Heap × chunk_t × Heap)
  | [], _ => none
  | c :: rest, a =>
    if a = 0 then some ([], c, rest)
    else (split_at_off rest (a - (HDR + c.size))).map (fun r => (c :: r.1, r.2.1, r.2.2))

/-- Memory read of a would-be header at byte offset `a` from the arena base:
on a chain header offset it is that chunk's header; elsewhere the bytes are
whatever the client stored there, supplied by the `oracle`. -/
def read_header (h : Heap) (oracle : Int → chunk_t) (a : Int) : chunk_t :=
  match split_at_off h a with
  | some r => r.2.1
  | none => oracle a

/-- Transcription of `myfree` (src/P1/mymalloc.c lines 223-314): NULL returns
without touching any state (this variant does NOT initialize the arena);
validation failures exit with code 2 leaving the allocator state as it was;
otherwise the chunk whose header sits at `ptr - sizeof(chunk_t)` is marked
free and coalesced.  In the corner case where validation passed on header
bytes read from inside a payload (not a chain header offset), the raw-memory
effect is outside the chain abstraction and the chain is left unchanged
here; `myfree_raw` below models that path faithfully at byte level (its
stores clobber overlapping header fields of real chunks). -/
def myfree (oracle : Int → chunk_t) (ptr : Option Int) (st : AllocState) :
    FreeOutcome × AllocState :=
  match myfree_check ptr (read_header st.heap oracle) with
  | .noop => (.noop, st)
  | .fatal c => (.fatal c, st)
  | .ok =>
    match ptr with
    | none => (.ok, st)
    | some p =>
      match split_at_off st.heap (p - HDR) with
      | some r => (.ok, { st with heap := free_chunk r.1 r.2.1 r.2.2 })
      | none => (.ok, st)

/-- Entry of `myfree` in the older variant src/project1-mymalloc/mymalloc.c
(lines 112-114): unlike src/P1, that variant initializes the arena before any
validation.  Only this phase of that variant is modelled; the rest of that
function is not needed by the claims. -/
def myfree_v0_entry (st : AllocState) : AllocState :=
  if st.inited then st else init_heap st

/-- Accumulating walk of `leak_detection` (src/P1/mymalloc.c lines 96-126):
for every chunk still marked allocated, count it and add its payload size
(header bytes are not counted). -/
def leak_go (n : Nat) (b : Nat) : Heap → Nat × Nat
  | [] => (n, b)
  | c :: rest =>
    if c.allocated then leak_go (n + 1) (b + c.size) rest else leak_go n b rest

/-- `leak_detection` as a function of the chain: the pair (number of leaked
objects, total leaked payload bytes).  The C function only reads the chain
(and prints); it mutates nothing, which the embedding reflects by being a
pure function of the chain. -/
def leak_detection (h : Heap) : Nat × Nat := leak_go 0 0 h

/-- One allocation step: the state after `mymalloc s` (used to build concrete
scenarios). -/
def alloc_step (st : AllocState) (s : Nat) : AllocState := (mymalloc s st).2

/-- State after five `mymalloc 32` calls starting from the uninitialized
process state (the leak scenario of the spec). -/
def five_leaks : AllocState :=
  alloc_step (alloc_step (alloc_step (alloc_step (alloc_step uninit_state 32) 32) 32) 32) 32

/-- Process-level observables for the leak-detector lifecycle: the
`initialized` flag, whether `atexit(leak_detection)` has been registered,
how many times the leak detector has executed, and the recorded exit status
once the process has terminated. -/
structure Proc where
  inited : Bool
  registered : Bool
  leakRuns : Nat
  exited : Option Nat
deriving DecidableEq

/-- Process state at program start: arena uninitialized, no atexit handler
registered, leak detector never run, process running. -/
def proc0 : Proc := ⟨false, false, 0, none⟩

/-- Semantics of the C library `exit(code)` (C17 7.22.4.4), as invoked by the
program: functions registered with `atexit` are called before termination —
here the only registrable handler is `leak_detection`, so it runs exactly
when it has been registered — and then the process terminates with `code`. -/
def c_exit (code : Nat) (p : Proc) : Proc :=
  { p with leakRuns := p.leakRuns + (if p.registered then 1 else 0), exited := some code }

/-- Effect of a `mymalloc` call on the process observables (src/P1/mymalloc.c
lines 150-153): initialize the arena (which registers the leak detector via
`atexit`, line 91) if not yet initialized; `mymalloc` never terminates the
process. -/
def proc_malloc (p : Proc) : Proc :=
  if p.inited then p else { p with inited := true, registered := true }

/-- Effect of a `myfree` call on the process observables: a validation
failure calls `exit(2)`; otherwise the call returns and the observables are
unchanged (src/P1's `myfree` performs no initialization).  The header bytes
the call would read are supplied by `read`. -/
def proc_free (ptr : Option Int) (read : Int → chunk_t) (p : Proc) : Proc :=
  match myfree_check ptr read with
  | .fatal c => c_exit c p
  | _ => p

/-- An allocator call as seen by the process model: an allocation of `s`
bytes, or a deallocation of pointer `ptr` whose header-byte reads are given
by `read`. -/
inductive CallEv where
  | malloc (s : Nat)
  | free (ptr : Option Int) (read : Int → chunk_t)

/-- Process step for one call. -/
def proc_step (p : Proc) : CallEv → Proc
  | .malloc _ => proc_malloc p
  | .free ptr read => proc_free ptr read p

/-- Run of a whole process: execute the calls in order; if a call terminates
the process (fatal `exit(2)`), later calls never run; if all calls return,
`main` returns and the runtime performs a normal `exit(0)` — which also runs
the registered `atexit` handlers. -/
def run_calls (p : Proc) : List CallEv → Proc
  | [] => c_exit 0 p
  | ev :: rest =>
    let p1 := proc_step p ev
    if p1.exited.isSome then p1 else run_calls p1 rest

/-- Concrete header-byte oracle for scenarios where the read value is
irrelevant (all-zero bytes). -/
def zero_read : Int → chunk_t := fun _ => ⟨0, false⟩

/-- Raw-memory view for the loop-termination claims: the interpretation of
the bytes at each offset from the arena base as a header, with no
well-formedness assumed (corrupt headers allowed). -/
def RawMem := Nat → chunk_t

/-- Address of the next header as computed by the C chunk walks:
`(char*)current + sizeof(chunk_t) + current->size` in 64-bit pointer
arithmetic (offsets taken from the arena base). -/
def next_off (o sz : Nat) : Nat := (o + HDR + sz) % SIZE_MOD

/-- Fuel-instrumented search loop of `mymalloc` (src/P1/mymalloc.c lines
178-215): while the current header lies inside the arena, stop successfully
on a free chunk with sufficient size; otherwise compute the next header
address and break when it does not strictly increase or falls outside the
arena (the safety check of lines 209-212).  `none` means the fuel ran out;
`some r` means the loop exited by itself with result `r`. -/
def malloc_loop_fuel (mem : RawMem) (need : Nat) : Nat → Nat → Option (Option Nat)
  | 0, o =>
    if o < MEMLENGTH then
      if (mem o).allocated = false ∧ need ≤ (mem o).size then some (some o)
      else
        let nx := next_off o (mem o).size
        if nx ≤ o ∨ MEMLENGTH ≤ nx then some none
        else none
    else some none
  | fuel + 1, o =>
    if o < MEMLENGTH then
      if (mem o).allocated = false ∧ need ≤ (mem o).size then some (some o)
      else
        let nx := next_off o (mem o).size
        if nx ≤ o ∨ MEMLENGTH ≤ nx then some none
        else malloc_loop_fuel mem need fuel nx
    else some none

/-- Fuel-instrumented predecessor scan of `myfree` (src/P1/mymalloc.c lines
288-305): while the scan pointer differs from the freed chunk's header and
lies inside the arena, stop successfully when the computed next header
equals the freed chunk's header; break when the next header does not
strictly increase or falls outside the arena (the safety check of lines
299-302).  `none` means the fuel ran out. -/
def prev_scan_fuel (mem : RawMem) (target : Nat) : Nat → Nat → Option (Option Nat)
  | 0, o =>
    if o ≠ target ∧ o < MEMLENGTH then
      let nx := next_off o (mem o).size
      if nx = target then some (some o)
      else if nx ≤ o ∨ MEMLENGTH ≤ nx then some none
      else none
    else some none
  | fuel + 1, o =>
    if o ≠ target ∧ o < MEMLENGTH then
      let nx := next_off o (mem o).size
      if nx = target then some (some o)
      else if nx ≤ o ∨ MEMLENGTH ≤ nx then some none
      else prev_scan_fuel mem target fuel nx
    else some none

/-- Raw little-endian byte view of the arena: the byte stored at each
offset from the arena base.  This finer-grained model is needed where
header writes overlap other headers (a forged header inside a payload),
which the chain and `Nat → chunk_t` views cannot express. -/
def Bytes := Nat → Nat

/-- Little-endian read of an 8-byte `size_t` at offset `o`. -/
def read64 (m : Bytes) (o : Nat) : Nat :=
  m o + 256 * m (o + 1) + 256 ^ 2 * m (o + 2) + 256 ^ 3 * m (o + 3) +
  256 ^ 4 * m (o + 4) + 256 ^ 5 * m (o + 5) + 256 ^ 6 * m (o + 6) + 256 ^ 7 * m (o + 7)

/-- Little-endian read of a 4-byte `int` at offset `o`. -/
def read32 (m : Bytes) (o : Nat) : Nat :=
  m o + 256 * m (o + 1) + 256 ^ 2 * m (o + 2) + 256 ^ 3 * m (o + 3)

/-- Little-endian store of the 8 low-order bytes of `v` at offset `o`. -/
def write64 (m : Bytes) (o v : Nat) : Bytes :=
  fun a => if o ≤ a ∧ a < o + 8 then v / 256 ^ (a - o) % 256 else m a

/-- Little-endian store of the 4 low-order bytes of `v` at offset `o`. -/
def write32 (m : Bytes) (o v : Nat) : Bytes :=
  fun a => if o ≤ a ∧ a < o + 4 then v / 256 ^ (a - o) % 256 else m a

/-- Interpretation of the 16 bytes at offset `o` as a `chunk_t` header:
`size_t size` at bytes [o, o+8), `int allocated` at bytes [o+8, o+12)
(nonzero means allocated); bytes [o+12, o+16) are padding. -/
def hdr_at (m : Bytes) (o : Nat) : chunk_t :=
  ⟨read64 m o, read32 m (o + 8) != 0⟩

/-- Header view of a raw byte arena. -/
def mem_of_bytes (m : Bytes) : RawMem := fun o => hdr_at m o

/-- Header read for `myfree_check` over a byte arena (offsets below the
base never influence the validation outcome: the `chunk < heap.bytes`
disjunct catches them first). -/
def read_of_bytes (m : Bytes) : Int → chunk_t :=
  fun a => if 0 ≤ a then hdr_at m a.toNat else ⟨0, false⟩

/-- Chunks reachable by walking headers from offset `o` (as the mymalloc
search, the heap dump and the leak scan all walk them): read the header,
advance by `sizeof(chunk_t) + size` in 64-bit pointer arithmetic, stop at
the arena end; the fuel bounds the walk. -/
def chain_walk (mem : RawMem) : Nat → Nat → Heap
  | 0, _ => []
  | fuel + 1, o =>
    if o < MEMLENGTH then mem o :: chain_walk mem fuel (next_off o (mem o).size)
    else []

/-- Mutation phase of `myfree` (src/P1/mymalloc.c lines 264-311) on raw
arena bytes, at the already-validated pointer offset `p`: line 265 stores 0
into the `allocated` field of the presumed header at `p - sizeof(chunk_t)`;
lines 269-279 coalesce forward when the computed next header lies below the
arena end and reads as free; lines 283-305 scan for the predecessor (the
loop transcribed by `prev_scan_fuel`, reading the post-coalesce bytes);
lines 307-311 coalesce backward when a predecessor was found and reads as
free.  Unlike the chain view, these stores clobber whatever bytes they
overlap, including other chunks' header fields. -/
def myfree_bytes (m : Bytes) (p : Nat) : Bytes :=
  let co := p - HDR
  let m1 := write32 m (co + 8) 0
  let nxt := next_off co (read64 m1 co)
  let m2 :=
    if nxt < MEMLENGTH then
      if read32 m1 (nxt + 8) = 0 then
        write64 m1 co ((read64 m1 co + HDR + read64 m1 nxt) % SIZE_MOD)
      else m1
    else m1
  match prev_scan_fuel (mem_of_bytes m2) co MEMLENGTH 0 with
  | some (some pv) =>
    if read32 m2 (pv + 8) = 0 then
      write64 m2 pv ((read64 m2 pv + HDR + read64 m2 co) % SIZE_MOD)
    else m2
  | _ => m2

/-- Whole `myfree` (src/P1/mymalloc.c lines 223-314) over raw arena bytes:
the validation cascade of `myfree_check` followed, on success, by the
byte-level mutation phase. -/
def myfree_raw (m : Bytes) (ptr : Option Int) : FreeOutcome × Bytes :=
  match myfree_check ptr (read_of_bytes m) with
  | .noop => (.noop, m)
  | .fatal c => (.fatal c, m)
  | .ok =>
    match ptr with
    | some p => (.ok, myfree_bytes m p.toNat)
    | none => (.noop, m)

/-- All-zero arena bytes: the static backing store before any call. -/
def zero_mem : Bytes := fun _ => 0

/-- Arena bytes after `initialize_heap` (src/P1/mymalloc.c lines 85-87):
size `MEMLENGTH - sizeof(chunk_t) = 4080` stored at offset 0, allocated
flag 0 at offset 8. -/
def mem_after_init : Bytes := write32 (write64 zero_mem 0 4080) 8 0

/-- Arena bytes after `mymalloc(100)` on the fresh arena: the padded size
is 104, the initial free chunk splits (src/P1/mymalloc.c lines 186-199, in
store order): `new_chunk->size = 3960` at offset 120, `new_chunk->allocated = 0`
at offset 128, `current->size = 104` at offset 0, `current->allocated = 1`
at offset 8; the returned payload occupies bytes [16, 120). -/
def mem_after_malloc100 : Bytes :=
  write32 (write64 (write32 (write64 mem_after_init 120 3960) 128 0) 0 104) 8 1

/-- Arena bytes after the client then stores the 8-byte value 8 at bytes
[112, 120) — inside its own 104-byte payload [16, 120), a store the
allocator contract permits.  Those bytes now read as the size field of a
forged header at offset 112 whose `allocated` field, bytes [120, 124),
aliases the low half of the real free chunk's size field 3960 (nonzero,
hence "allocated"). -/
def mem_forged : Bytes := write64 mem_after_malloc100 112 8

/-- Masking a 64-bit value with `~7` (the 64-bit constant `2 ^ 64 - 8`)
clears its low three bits, i.e. maps `x` to `x / 8 * 8`; this justifies the
division form used in `aligned_size` for the C expression `x & ~7`. -/
theorem land_not_seven (x : Nat) (hx : x < 2 ^ 64) : x &&& (2 ^ 64 - 8) = x / 8 * 8 := by
  have hmask : (2 ^ 64 - 8 : Nat) = 2 ^ 3 * (2 ^ 61 - 1) := by norm_num
  have hdiv : x / 8 * 8 = 2 ^ 3 * (x >>> 3) := by
    rw [Nat.shiftRight_eq_div_pow]
    norm_num
    omega
  apply Nat.eq_of_testBit_eq
  intro j
  rw [Nat.testBit_land, hmask, hdiv, Nat.testBit_mul_pow_two, Nat.testBit_mul_pow_two,
    Nat.testBit_two_pow_sub_one, Nat.testBit_shiftRight]
  rcases lt_or_le j 3 with h3 | h3
  · simp [h3, Nat.not_le.mpr h3]
  · rcases lt_or_le j 64 with h64 | h64
    · have : j - 3 < 61 := by omega
      simp [h3, this, Nat.add_sub_cancel' h3]
    · have hxj : x.testBit j = false :=
        Nat.testBit_eq_false_of_lt (lt_of_lt_of_le hx (Nat.pow_le_pow_right (by norm_num) h64))
      have : ¬ (j - 3 < 61) := by omega
      simp [h3, this, Nat.add_sub_cancel' h3, hxj]

/-- Sanity check that `aligned_size` equals the literal bitwise form of
src/P1/mymalloc.c line 165, `((s + 7) mod 2 ^ 64) & ~7`. -/
theorem aligned_size_eq_land (s : Nat) :
    aligned_size s = ((s + 7) % 2 ^ 64) &&& (2 ^ 64 - 8) := by
  rw [land_not_seven _ (Nat.mod_lt _ (by norm_num))]
  rfl

/-- Claim C8: the claim says the padded size is never smaller than the requested
size for all unsigned values of `s` including those near the maximum of
`size_t`; but `(size + 7)` wraps mod `2 ^ 64`, so for `s = 2 ^ 64 - 1` the
computed padded size is 0, which is smaller than `s`. -/
theorem C8_counterexample :
    padded_size (2 ^ 64 - 1) = 0 ∧ padded_size (2 ^ 64 - 1) < 2 ^ 64 - 1 := by
  constructor
  · show padded_size (2 ^ 64 - 1) = 0
    unfold padded_size aligned_size MIN_CHUNK_SIZE HDR ALIGNMENT SIZE_MOD
    norm_num
  · show padded_size (2 ^ 64 - 1) < 2 ^ 64 - 1
    unfold padded_size aligned_size MIN_CHUNK_SIZE HDR ALIGNMENT SIZE_MOD
    norm_num

/-- Claim C8 as amended: for every requested size `s` with `0 < s` and
`s + 7 < 2 ^ 64` (no `size_t` overflow in the padding addition), the padded
size is the least multiple of ALIGNMENT that is at least `s`; in particular
it is never smaller than `s`.  The minimum-payload adjustment is a no-op
because `MIN_CHUNK_SIZE - sizeof(chunk_t) = 0`.  For `s` within 7 of the
maximum of `size_t` the addition wraps and the padded size is smaller than
`s` (see the counterexample). -/
theorem C8_padding (s : Nat) (hpos : 0 < s) (hnof : s + 7 < 2 ^ 64) :
    s ≤ padded_size s ∧ padded_size s % ALIGNMENT = 0 ∧
      ∀ m, s ≤ m → m % ALIGNMENT = 0 → padded_size s ≤ m := by
  have hmod : (s + (ALIGNMENT - 1)) % SIZE_MOD = s + 7 := by
    unfold ALIGNMENT SIZE_MOD
    exact Nat.mod_eq_of_lt (by omega)
  have hpad : padded_size s = (s + 7) / 8 * 8 := by
    unfold padded_size aligned_size MIN_CHUNK_SIZE HDR
    rw [hmod]
    simp [ALIGNMENT]
  refine ⟨?_, ?_, ?_⟩
  · rw [hpad]; omega
  · rw [hpad]; unfold ALIGNMENT; omega
  · intro m hsm hm8
    rw [hpad]; unfold ALIGNMENT at hm8; omega

/-- Witness for C8: the padding property at the concrete request size 3. -/
theorem C8_witness :
    3 ≤ padded_size 3 ∧ padded_size 3 % ALIGNMENT = 0 ∧
      ∀ m, 3 ≤ m → m % ALIGNMENT = 0 → padded_size 3 ≤ m :=
  C8_padding 3 (by decide) (by norm_num)

/-- Fuel bound for the mymalloc search loop: whenever the remaining arena
span `MEMLENGTH - o` bounds the fuel from below, the loop exits by itself
(the fuel is never exhausted), because every continuing iteration strictly
increases the header offset while staying inside the arena. -/
theorem malloc_loop_term (mem : RawMem) (need : Nat) :
    ∀ fuel o, MEMLENGTH - o ≤ fuel → (malloc_loop_fuel mem need fuel o).isSome = true := by
  intro fuel
  induction fuel with
  | zero =>
    intro o ho
    unfold malloc_loop_fuel
    have h1 : ¬ o < MEMLENGTH := by unfold MEMLENGTH at *; omega
    simp [h1]
  | succ fuel ih =>
    intro o ho
    unfold malloc_loop_fuel
    by_cases h1 : o < MEMLENGTH
    · by_cases h2 : (mem o).allocated = false ∧ need ≤ (mem o).size
      · simp [h1, h2]
      · by_cases h3 : next_off o (mem o).size ≤ o ∨ MEMLENGTH ≤ next_off o (mem o).size
        · simp [h1, h2, h3]
        · simp only [h1, if_true, h2, if_false, h3]
          apply ih
          push_neg at h3
          omega
    · simp [h1]

/-- Fuel bound for the myfree predecessor scan, by the same measure. -/
theorem prev_scan_term (mem : RawMem) (target : Nat) :
    ∀ fuel o, MEMLENGTH - o ≤ fuel → (prev_scan_fuel mem target fuel o).isSome = true := by
  intro fuel
  induction fuel with
  | zero =>
    intro o ho
    unfold prev_scan_fuel
    have h1 : ¬ (o ≠ target ∧ o < MEMLENGTH) := by
      unfold MEMLENGTH at *
      omega
    simp [h1]
  | succ fuel ih =>
    intro o ho
    unfold prev_scan_fuel
    by_cases h1 : o ≠ target ∧ o < MEMLENGTH
    · rw [if_pos h1]
      by_cases h2 : next_off o (mem o).size = target
      · simp [h2]
      · by_cases h3 : next_off o (mem o).size ≤ o ∨ MEMLENGTH ≤ next_off o (mem o).size
        · simp [h2, h3]
        · simp only [h2, if_false, h3]
          apply ih
          push_neg at h3
          obtain ⟨_, h1b⟩ := h1
          omega
    · simp [h1]

/-- Claim C10: the chunk-walking loops of mymalloc (free-chunk search) and myfree
(predecessor scan) terminate for every raw arena state, corrupt headers
included, within `MEMLENGTH` iterations: each loop breaks when the computed
next-chunk address does not strictly increase or falls outside the arena, so
starting from the arena base the fuel `MEMLENGTH` is never exhausted. -/
theorem C10_loop_termination (mem : RawMem) (need target : Nat) :
    (malloc_loop_fuel mem need MEMLENGTH 0).isSome = true ∧
    (prev_scan_fuel mem target MEMLENGTH 0).isSome = true :=
  ⟨malloc_loop_term mem need MEMLENGTH 0 (by omega),
   prev_scan_term mem target MEMLENGTH 0 (by omega)⟩

/-- Claim C4: for every non-null pointer passed to myfree that is outside the
arena bounds, misaligned with respect to ALIGNMENT, has a header failing the
sanity checks (size zero, size not a multiple of ALIGNMENT, or header plus
size exceeding the arena end), or refers to a chunk already marked free, the
validation ends in the fatal branch `exit(2)` and the call does not return
normally. -/
theorem C4_invalid_free_fatal (p : Int) (read : Int → chunk_t)
    (hbad : (p < 0 ∨ (MEMLENGTH : Int) ≤ p) ∨
      p % (ALIGNMENT : Int) ≠ 0 ∨
      (read (p - HDR)).size = 0 ∨
      (read (p - HDR)).size % ALIGNMENT ≠ 0 ∨
      (MEMLENGTH : Int) < (p - HDR) + HDR + (read (p - HDR)).size ∨
      (read (p - HDR)).allocated = false) :
    myfree_check (some p) read = .fatal 2 := by
  simp only [myfree_check]
  split_ifs with h1 h2 h3 h4
  · rfl
  · rfl
  · rfl
  · rfl
  · exfalso
    push_neg at h1 h2 h3
    obtain ⟨h3a, h3b, h3c, h3d⟩ := h3
    rcases hbad with (hb | hb) | hb | hb | hb | hb | hb
    · omega
    · omega
    · exact hb h2
    · exact h3c hb
    · exact hb h3d
    · omega
    · rw [hb] at h4; exact h4 rfl

/-- Witness for C4: the out-of-bounds pointer at offset 5000 is fatal. -/
theorem C4_witness : myfree_check (some 5000) zero_read = .fatal 2 :=
  C4_invalid_free_fatal 5000 zero_read (Or.inl (Or.inr (by norm_num [MEMLENGTH])))

/-- Counterexample to C5: the claim says `allocate(0)` causes no state change
even as the very first allocator call; but mymalloc initializes the arena
before the zero-size check (src/P1/mymalloc.c lines 152-154 precede lines
159-162), so the very first `mymalloc 0` flips the `initialized` flag and
rewrites the arena header, returning a changed state. -/
theorem C5_counterexample :
    (mymalloc 0 uninit_state).1 = none ∧
    ((mymalloc 0 uninit_state).2).inited = true ∧
    uninit_state.inited = false ∧
    (mymalloc 0 uninit_state).2 ≠ uninit_state := by
  refine ⟨rfl, rfl, rfl, ?_⟩
  decide

/-- Claim C5 as amended: `allocate(0)` returns a null result; if the arena was
already initialized the whole allocator state is unchanged; if it was not,
the only state change is the lazy initialization (the initial free chunk is
written and the `initialized` flag set) performed before the size check. -/
theorem C5_zero_request (st : AllocState) :
    (mymalloc 0 st).1 = none ∧
    (st.inited = true → (mymalloc 0 st).2 = st) ∧
    (st.inited = false → (mymalloc 0 st).2 = init_heap st) := by
  unfold mymalloc
  by_cases h : st.inited <;> simp [h]

/-- Witness for C5: both branches of the amended claim at concrete states. -/
theorem C5_witness :
    (mymalloc 0 uninit_state).1 = none ∧
    (mymalloc 0 uninit_state).2 = init_heap uninit_state ∧
    (mymalloc 0 (init_heap uninit_state)).2 = init_heap uninit_state :=
  ⟨(C5_zero_request uninit_state).1,
   (C5_zero_request uninit_state).2.2 rfl,
   (C5_zero_request (init_heap uninit_state)).2.1 rfl⟩

/-- Leak-run accounting for a whole process run: starting from a state that
has not yet run the leak detector and has not exited, the leak detector runs
exactly once if the handler is registered at termination and zero times
otherwise — regardless of whether the run ends normally or by a fatal
`exit(2)` — and the run always terminates. -/
theorem run_calls_leak (calls : List CallEv) :
    ∀ p : Proc, p.leakRuns = 0 → p.exited = none →
      (run_calls p calls).leakRuns =
        (if (run_calls p calls).registered then 1 else 0) ∧
      (run_calls p calls).exited.isSome = true := by
  induction calls with
  | nil =>
    intro p hp _
    unfold run_calls c_exit
    simp [hp]
  | cons ev rest ih =>
    intro p hp hex
    unfold run_calls
    cases ev with
    | malloc s =>
      have hstep : (proc_step p (.malloc s)).exited = none := by
        simp only [proc_step, proc_malloc]
        by_cases h : p.inited <;> simp [h, hex]
      have hruns : (proc_step p (.malloc s)).leakRuns = 0 := by
        simp only [proc_step, proc_malloc]
        by_cases h : p.inited <;> simp [h, hp]
      simp only [hstep, Option.isSome_none, Bool.false_eq_true, if_false]
      exact ih _ hruns hstep
    | free ptr read =>
      cases hchk : myfree_check ptr read with
      | fatal c =>
        have hstep : proc_step p (.free ptr read) = c_exit c p := by
          simp only [proc_step, proc_free, hchk]
        simp only [hstep]
        unfold c_exit
        simp [hp]
      | noop =>
        have hstep : proc_step p (.free ptr read) = p := by
          simp only [proc_step, proc_free, hchk]
        simp only [hstep, hex, Option.isSome_none, Bool.false_eq_true, if_false]
        exact ih p hp hex
      | ok =>
        have hstep : proc_step p (.free ptr read) = p := by
          simp only [proc_step, proc_free, hchk]
        simp only [hstep, hex, Option.isSome_none, Bool.false_eq_true, if_false]
        exact ih p hp hex

/-- Counterexample to C6: the claim says the leak detector does not run on the
fatal-error termination paths; but those paths call the C library `exit(2)`,
which runs the handlers registered with `atexit` — so in the run
[mymalloc 8, myfree of the misaligned in-bounds pointer 3], which terminates
fatally with status 2, the leak detector executes once. -/
theorem C6_counterexample :
    (run_calls proc0 [CallEv.malloc 8, CallEv.free (some 3) zero_read]).exited = some 2 ∧
    (run_calls proc0 [CallEv.malloc 8, CallEv.free (some 3) zero_read]).leakRuns = 1 := by
  constructor <;> rfl

/-- Claim C6 as amended: over every sequence of allocator calls, the leak detector
executes at most once, and it executes exactly once if and only if the
arena was initialized (the `atexit` handler registered) before the process
terminated — whether termination is normal or one of the allocator's fatal
`exit(2)` paths, since `exit` honors `atexit` handlers; every run does
terminate. -/
theorem C6_leak_runs (calls : List CallEv) :
    (run_calls proc0 calls).leakRuns =
      (if (run_calls proc0 calls).registered then 1 else 0) ∧
    (run_calls proc0 calls).leakRuns ≤ 1 ∧
    (run_calls proc0 calls).exited.isSome = true := by
  obtain ⟨h1, h2⟩ := run_calls_leak calls proc0 rfl rfl
  refine ⟨h1, ?_, h2⟩
  rw [h1]
  by_cases h : (run_calls proc0 calls).registered <;> simp [h]

/-- Accumulator characterization of the leak walk: it adds to the running
counters the number of allocated chunks and the sum of their payload sizes. -/
theorem leak_go_eq (h : Heap) : ∀ n b, leak_go n b h =
    (n + (h.filter (fun c => c.allocated)).length,
     b + ((h.filter (fun c => c.allocated)).map chunk_t.size).sum) := by
  induction h with
  | nil => intro n b; simp [leak_go]
  | cons c rest ih =>
    intro n b
    unfold leak_go
    by_cases hc : c.allocated
    · simp [hc, ih]
      omega
    · simp [hc, ih]

/-- Claim C7: the leak detector reports the number of chunks still marked
allocated and the sum of their payload sizes (header bytes excluded); in the
scenario of five `mymalloc 32` calls with no free it reports exactly 5
objects and 160 leaked bytes.  It never mutates any chunk header: its
embedding is a pure function of the chain, mirroring the read-only C walk. -/
theorem C7_leak_detection :
    (∀ h : Heap, leak_detection h =
      ((h.filter (fun c => c.allocated)).length,
       ((h.filter (fun c => c.allocated)).map chunk_t.size).sum)) ∧
    leak_detection five_leaks.heap = (5, 160) := by
  constructor
  · intro h
    unfold leak_detection
    rw [leak_go_eq]
    simp
  · decide

/-- Counterexample to C9: the claim says a deallocate call made before any
allocate call initializes the arena; but src/P1's `myfree` contains no
initialization (src/P1/mymalloc.c lines 223-231 go straight to the NULL
check), so a NULL `myfree` as the first allocator call returns normally with
the arena still uninitialized. -/
theorem C9_counterexample :
    myfree zero_read none uninit_state = (.noop, uninit_state) ∧
    uninit_state.inited = false := by
  exact ⟨rfl, rfl⟩

/-- Claim C9 as amended: the arena's single initial free chunk (payload size
`MEMLENGTH - sizeof(chunk_t)`) is created by `initialize_heap`, invoked by
the first mymalloc call; in src/P1 a myfree call never initializes the
arena (its flag is left exactly as found), while in the older variant
src/project1-mymalloc `myfree` does initialize before validation. -/
theorem C9_lazy_init :
    (∀ st : AllocState, (init_heap st).heap = [⟨MEMLENGTH - HDR, false⟩] ∧
      (init_heap st).inited = true) ∧
    (∀ (s : Nat) (st : AllocState), st.inited = false →
      ((mymalloc s st).2).inited = true) ∧
    (∀ (oracle : Int → chunk_t) (ptr : Option Int) (st : AllocState),
      ((myfree oracle ptr st).2).inited = st.inited) ∧
    (∀ st : AllocState, (myfree_v0_entry st).inited = true) := by
  refine ⟨fun st => ⟨rfl, rfl⟩, ?_, ?_, ?_⟩
  · intro s st hst
    unfold mymalloc
    simp only [hst, Bool.false_eq_true, if_false]
    by_cases hs : s = 0
    · simp [hs, init_heap]
    · simp only [hs, if_false]
      cases malloc_scan (padded_size s) (init_heap st).heap with
      | none => simp [init_heap]
      | some r => simp [init_heap]
  · intro oracle ptr st
    cases hchk : myfree_check ptr (read_header st.heap oracle) with
    | noop => simp [myfree, hchk]
    | fatal c => simp [myfree, hchk]
    | ok =>
      cases ptr with
      | none => simp [myfree, hchk]
      | some p =>
        cases hsp : split_at_off st.heap (p - (HDR : Int)) with
        | none => simp [myfree, hchk, hsp]
        | some r => simp [myfree, hchk, hsp]
  · intro st
    unfold myfree_v0_entry
    by_cases h : st.inited <;> simp [h, init_heap]

/-- Witness for C9: the first mymalloc call initializes the uninitialized
state, and a myfree call leaves the flag unchanged. -/
theorem C9_witness :
    ((mymalloc 8 uninit_state).2).inited = true ∧
    ((myfree zero_read none uninit_state).2).inited = uninit_state.inited :=
  ⟨C9_lazy_init.2.1 8 uninit_state rfl,
   C9_lazy_init.2.2.1 zero_read none uninit_state⟩

/-- First-fit characterization of the mymalloc search loop: the selected
chunk is free with sufficient size, and every chunk at a lower address is
either allocated or too small. -/
theorem malloc_scan_first (need : Nat) :
    ∀ (h : Heap) (i : Nat) (h2 : Heap), malloc_scan need h = some (i, h2) →
      (∃ c, h[i]? = some c ∧ c.allocated = false ∧ need ≤ c.size) ∧
      ∀ j, j < i → ∀ d, h[j]? = some d → d.allocated = true ∨ d.size < need := by
  intro h
  induction h with
  | nil => intro i h2 hm; simp [malloc_scan] at hm
  | cons c rest ih =>
    intro i h2 hm
    unfold malloc_scan at hm
    by_cases hc : c.allocated = false ∧ need ≤ c.size
    · rw [if_pos hc] at hm
      have hi : i = 0 := by
        split_ifs at hm <;>
          (simp only [Option.some.injEq, Prod.mk.injEq] at hm; omega)
      subst hi
      refine ⟨⟨c, by simp, hc.1, hc.2⟩, ?_⟩
      intro j hj
      omega
    · rw [if_neg hc] at hm
      cases hscan : malloc_scan need rest with
      | none => rw [hscan] at hm; simp at hm
      | some r =>
        rw [hscan] at hm
        simp only [Option.map_some', Option.some.injEq, Prod.mk.injEq] at hm
        obtain ⟨hi, hh⟩ := hm
        obtain ⟨⟨d, hd, hdf, hds⟩, hlow⟩ := ih r.1 r.2 (by rw [hscan])
        constructor
        · exact ⟨d, by rw [← hi]; simpa using hd, hdf, hds⟩
        · intro j hj e he
          cases j with
          | zero =>
            simp only [List.getElem?_cons_zero, Option.some.injEq] at he
            subst he
            by_cases hb : c.allocated = true
            · exact Or.inl hb
            · right
              have hbf : c.allocated = false := by
                cases hba : c.allocated
                · rfl
                · exact absurd hba hb
              by_contra hlt
              exact hc ⟨hbf, by omega⟩
          | succ j' =>
            simp only [List.getElem?_cons_succ] at he
            exact hlow j' (by omega) e he

/-- Claim C2: for every request size `s > 0`, the chunk mymalloc selects is the
first chunk in address order scanning from the arena base that is free and
whose payload size is at least the padded size; no sufficient free chunk at
a lower address is skipped. -/
theorem C2_first_fit (s : Nat) (h : Heap) (i : Nat) (h2 : Heap)
    (_hs : 0 < s) (hm : malloc_scan (padded_size s) h = some (i, h2)) :
    (∃ c, h[i]? = some c ∧ c.allocated = false ∧ padded_size s ≤ c.size) ∧
    ∀ j, j < i → ∀ d, h[j]? = some d →
      d.allocated = true ∨ d.size < padded_size s :=
  malloc_scan_first (padded_size s) h i h2 hm

/-- Witness for C2: with request size 8 on a chain whose chunk 0 is allocated
and chunk 1 is free but too small, chunk 2 is selected. -/
theorem C2_witness :
    (∃ c, ([⟨16, true⟩, ⟨8, false⟩, ⟨4000, false⟩] : Heap)[2]? = some c ∧
      c.allocated = false ∧ padded_size 16 ≤ c.size) ∧
    ∀ j, j < 2 → ∀ d, ([⟨16, true⟩, ⟨8, false⟩, ⟨4000, false⟩] : Heap)[j]? = some d →
      d.allocated = true ∨ d.size < padded_size 16 :=
  C2_first_fit 16 ([⟨16, true⟩, ⟨8, false⟩, ⟨4000, false⟩] : Heap) 2
    ([⟨16, true⟩, ⟨8, false⟩, ⟨16, true⟩, ⟨3968, false⟩] : Heap) (by decide) (by decide)

/-- Shape of the mymalloc search result: the selected free chunk is
replaced, in place, by the split pair when
`need + sizeof(chunk_t) + MIN_CHUNK_SIZE <= size` — the allocated low part
of payload exactly `need` and a new free chunk of payload exactly
`size - need - sizeof(chunk_t)` — and by the whole chunk marked allocated
with its size unchanged otherwise; no other chunk is touched. -/
theorem malloc_scan_shape (need : Nat) :
    ∀ (h : Heap) (i : Nat) (h2 : Heap), malloc_scan need h = some (i, h2) →
      ∃ c, h[i]? = some c ∧ c.allocated = false ∧ need ≤ c.size ∧
        h2 = h.take i ++
          (if need + HDR + MIN_CHUNK_SIZE ≤ c.size then
            [⟨need, true⟩, ⟨c.size - need - HDR, false⟩]
          else [⟨c.size, true⟩]) ++ h.drop (i + 1) := by
  intro h
  induction h with
  | nil => intro i h2 hm; simp [malloc_scan] at hm
  | cons c rest ih =>
    intro i h2 hm
    unfold malloc_scan at hm
    by_cases hc : c.allocated = false ∧ need ≤ c.size
    · rw [if_pos hc] at hm
      by_cases hsp : need + HDR + MIN_CHUNK_SIZE ≤ c.size
      · rw [if_pos hsp] at hm
        simp only [Option.some.injEq, Prod.mk.injEq] at hm
        obtain ⟨hi, hh⟩ := hm
        subst hi
        exact ⟨c, by simp, hc.1, hc.2, by simp [← hh, hsp]⟩
      · rw [if_neg hsp] at hm
        simp only [Option.some.injEq, Prod.mk.injEq] at hm
        obtain ⟨hi, hh⟩ := hm
        subst hi
        exact ⟨c, by simp, hc.1, hc.2, by simp [← hh, hsp]⟩
    · rw [if_neg hc] at hm
      cases hscan : malloc_scan need rest with
      | none => rw [hscan] at hm; simp at hm
      | some r =>
        rw [hscan] at hm
        simp only [Option.map_some', Option.some.injEq, Prod.mk.injEq] at hm
        obtain ⟨hi, hh⟩ := hm
        obtain ⟨d, hd, hdf, hds, hshape⟩ := ih r.1 r.2 (by rw [hscan])
        refine ⟨d, by rw [← hi]; simpa using hd, hdf, hds, ?_⟩
        rw [← hi, ← hh, hshape]
        simp [List.take_succ_cons, List.drop_succ_cons]

/-- Counterexample to C3: the claim splits exactly when the payload size
strictly exceeds `paddedSize + H + M`; but the code splits on `>=`
(src/P1/mymalloc.c line 186).  With padded size 8 and a free chunk of
payload exactly `8 + 16 + 16 = 40`, the strict condition fails yet the
chunk is split into an allocated part of payload 8 and a free part of
payload 16. -/
theorem C3_counterexample :
    malloc_scan (padded_size 8) ([⟨40, false⟩] : Heap) =
      some (0, ([⟨8, true⟩, ⟨16, false⟩] : Heap)) ∧
    ¬ (40 > padded_size 8 + HDR + MIN_CHUNK_SIZE) := by
  constructor
  · decide
  · decide

/-- Claim C3 as amended: when mymalloc selects a free chunk, the chunk is split
exactly when its payload size is AT LEAST `paddedSize + H + M` (the code
compares with `>=`, not strictly); on a split the allocated low part gets
payload exactly `paddedSize` and the new free chunk immediately following
gets payload exactly `oldSize - paddedSize - H`; otherwise the entire chunk
is handed over allocated with its payload size unchanged, and no other
chunk is modified. -/
theorem C3_split_policy (s : Nat) (h : Heap) (i : Nat) (h2 : Heap)
    (hm : malloc_scan (padded_size s) h = some (i, h2)) :
    ∃ c, h[i]? = some c ∧ c.allocated = false ∧ padded_size s ≤ c.size ∧
      h2 = h.take i ++
        (if padded_size s + HDR + MIN_CHUNK_SIZE ≤ c.size then
          [⟨padded_size s, true⟩, ⟨c.size - padded_size s - HDR, false⟩]
        else [⟨c.size, true⟩]) ++ h.drop (i + 1) :=
  malloc_scan_shape (padded_size s) h i h2 hm

/-- Witness for C3: the amended split policy at request size 32 on the initial
arena chunk. -/
theorem C3_witness :
    ∃ c, (([⟨4080, false⟩] : Heap))[0]? = some c ∧ c.allocated = false ∧
      padded_size 32 ≤ c.size ∧
      ([⟨32, true⟩, ⟨4032, false⟩] : Heap) = ([⟨4080, false⟩] : Heap).take 0 ++
        (if padded_size 32 + HDR + MIN_CHUNK_SIZE ≤ c.size then
          [⟨padded_size 32, true⟩, ⟨c.size - padded_size 32 - HDR, false⟩]
        else [⟨c.size, true⟩]) ++ ([⟨4080, false⟩] : Heap).drop 1 :=
  C3_split_policy 32 ([⟨4080, false⟩] : Heap) 0 ([⟨32, true⟩, ⟨4032, false⟩] : Heap)
    (by decide)

/-- Unfolding lemma for the byte count of a cons chain. -/
theorem total_bytes_cons (c : chunk_t) (h : Heap) :
    total_bytes (c :: h) = HDR + c.size + total_bytes h := by
  simp [total_bytes]

/-- Byte count of a concatenated chain. -/
theorem total_bytes_append (h1 h2 : Heap) :
    total_bytes (h1 ++ h2) = total_bytes h1 + total_bytes h2 := by
  simp [total_bytes]

/-- The minimum-payload adjustment is a no-op (its bound is
`MIN_CHUNK_SIZE - sizeof(chunk_t) = 0`). -/
theorem padded_size_eq (s : Nat) : padded_size s = aligned_size s := by
  unfold padded_size MIN_CHUNK_SIZE HDR
  simp

/-- The padded size is always a multiple of ALIGNMENT. -/
theorem padded_size_mod (s : Nat) : padded_size s % ALIGNMENT = 0 := by
  rw [padded_size_eq]
  unfold aligned_size
  exact Nat.mul_mod_left _ _

/-- Invariant preservation by the mymalloc search-and-split loop: when the
requested (padded) size is a multiple of ALIGNMENT, a successful scan keeps
the total byte count, keeps all payload sizes multiples of ALIGNMENT, keeps
the no-two-adjacent-free property, and the head of the result is either
allocated or the unchanged head of the input. -/
theorem malloc_scan_inv (need : Nat) (hmod : need % ALIGNMENT = 0) :
    ∀ (h : Heap) (i : Nat) (h2 : Heap),
      (∀ c ∈ h, c.size % ALIGNMENT = 0) → no_adjacent_free h →
      malloc_scan need h = some (i, h2) →
      total_bytes h2 = total_bytes h ∧
      (∀ c ∈ h2, c.size % ALIGNMENT = 0) ∧
      no_adjacent_free h2 ∧
      (∀ x, h2.head? = some x → x.allocated = true ∨ h.head? = some x) := by
  intro h
  induction h with
  | nil => intro i h2 _ _ hm; simp [malloc_scan] at hm
  | cons c rest ih =>
    intro i h2 hsz hadj hm
    unfold malloc_scan at hm
    have hszc : c.size % ALIGNMENT = 0 := hsz c (by simp)
    have hszr : ∀ x ∈ rest, x.size % ALIGNMENT = 0 := fun x hx => hsz x (by simp [hx])
    have hadjc := List.chain'_cons'.mp hadj
    have hrel : ∀ y ∈ rest.head?, not_both_free c y := hadjc.1
    have hadjr : no_adjacent_free rest := hadjc.2
    by_cases hc : c.allocated = false ∧ need ≤ c.size
    · rw [if_pos hc] at hm
      by_cases hsp : need + HDR + MIN_CHUNK_SIZE ≤ c.size
      · rw [if_pos hsp] at hm
        simp only [Option.some.injEq, Prod.mk.injEq] at hm
        obtain ⟨hi, hh⟩ := hm
        subst hh
        refine ⟨?_, ?_, ?_, ?_⟩
        · rw [total_bytes_cons, total_bytes_cons, total_bytes_cons]
          dsimp only
          unfold HDR MIN_CHUNK_SIZE at *
          omega
        · intro x hx
          simp only [List.mem_cons] at hx
          rcases hx with rfl | rfl | hx
          · exact hmod
          · show (c.size - need - HDR) % ALIGNMENT = 0
            unfold HDR MIN_CHUNK_SIZE ALIGNMENT at *
            omega
          · exact hszr x hx
        · refine List.chain'_cons'.mpr ⟨fun y _ => Or.inl rfl, ?_⟩
          refine List.chain'_cons'.mpr ⟨?_, hadjr⟩
          intro y hy
          rcases hrel y hy with hca | hya
          · rw [hc.1] at hca; exact absurd hca (by simp)
          · exact Or.inr hya
        · intro x hx
          simp only [List.head?_cons, Option.some.injEq] at hx
          subst hx
          exact Or.inl rfl
      · rw [if_neg hsp] at hm
        simp only [Option.some.injEq, Prod.mk.injEq] at hm
        obtain ⟨hi, hh⟩ := hm
        subst hh
        refine ⟨?_, ?_, ?_, ?_⟩
        · rw [total_bytes_cons, total_bytes_cons]
        · intro x hx
          simp only [List.mem_cons] at hx
          rcases hx with rfl | hx
          · exact hszc
          · exact hszr x hx
        · refine List.chain'_cons'.mpr ⟨fun y _ => Or.inl rfl, hadjr⟩
        · intro x hx
          simp only [List.head?_cons, Option.some.injEq] at hx
          subst hx
          exact Or.inl rfl
    · rw [if_neg hc] at hm
      cases hscan : malloc_scan need rest with
      | none => rw [hscan] at hm; simp at hm
      | some r =>
        rw [hscan] at hm
        simp only [Option.map_some', Option.some.injEq, Prod.mk.injEq] at hm
        obtain ⟨hi, hh⟩ := hm
        obtain ⟨ht, hs2, hadj2, hhead⟩ := ih r.1 r.2 hszr hadjr (by rw [hscan])
        subst hh
        refine ⟨?_, ?_, ?_, ?_⟩
        · rw [total_bytes_cons, total_bytes_cons, ht]
        · intro x hx
          simp only [List.mem_cons] at hx
          rcases hx with rfl | hx
          · exact hszc
          · exact hs2 x hx
        · refine List.chain'_cons'.mpr ⟨?_, hadj2⟩
          intro y hy
          rcases hhead y hy with hya | hyr
          · exact Or.inr hya
          · exact hrel y hyr
        · intro x hx
          simp only [List.head?_cons, Option.some.injEq] at hx
          subst hx
          exact Or.inr rfl

/-- Invariant preservation by the backward-coalescing phase: if the freed
(and possibly forward-merged) chunk `c1` is free with aligned size, the
chunks before and after it satisfy the invariants, every chunk right after
`c1` is allocated, and the byte totals add up to the arena capacity, then
the resulting chain is well formed. -/
theorem free_back_inv (pre : Heap) (c1 : chunk_t) (post1 : Heap)
    (hfree : c1.allocated = false)
    (hsz1 : c1.size % ALIGNMENT = 0)
    (hszpre : ∀ x ∈ pre, x.size % ALIGNMENT = 0)
    (hszpost : ∀ x ∈ post1, x.size % ALIGNMENT = 0)
    (hpre : pre.Chain' not_both_free)
    (hpost : post1.Chain' not_both_free)
    (hhead : ∀ y ∈ post1.head?, y.allocated = true)
    (htot : total_bytes pre + (HDR + c1.size + total_bytes post1) = MEMLENGTH) :
    wf_heap (free_back pre c1 post1) := by
  unfold free_back
  rcases List.eq_nil_or_concat pre with rfl | ⟨l, p, rfl⟩
  · simp only [List.getLast?_nil]
    have h0 : total_bytes ([] : Heap) = 0 := rfl
    refine ⟨?_, ?_, ?_⟩
    · rw [total_bytes_cons]
      omega
    · intro x hx
      rcases List.mem_cons.mp hx with rfl | hx
      · exact hsz1
      · exact hszpost x hx
    · exact List.chain'_cons'.mpr ⟨fun y hy => Or.inr (hhead y hy), hpost⟩
  · simp only [List.concat_eq_append] at hszpre hpre htot ⊢
    rw [List.getLast?_concat]
    show wf_heap (if p.allocated = false then
        (l ++ [p]).dropLast ++ ⟨p.size + HDR + c1.size, false⟩ :: post1
      else (l ++ [p]) ++ c1 :: post1)
    have hszp : p.size % ALIGNMENT = 0 := hszpre p (by simp)
    have htotp : total_bytes [p] = HDR + p.size := by simp [total_bytes]
    rw [total_bytes_append] at htot
    obtain ⟨hl, hpl, hlink⟩ := List.chain'_append.mp hpre
    by_cases hp : p.allocated = false
    · rw [if_pos hp, List.dropLast_concat]
      refine ⟨?_, ?_, ?_⟩
      · rw [total_bytes_append, total_bytes_cons]
        dsimp only
        omega
      · intro x hx
        rcases List.mem_append.mp hx with hx | hx
        · exact hszpre x (by simp [hx])
        · rcases List.mem_cons.mp hx with rfl | hx
          · show (p.size + HDR + c1.size) % ALIGNMENT = 0
            unfold ALIGNMENT HDR at *
            omega
          · exact hszpost x hx
      · refine List.chain'_append.mpr
          ⟨hl, List.chain'_cons'.mpr ⟨fun y hy => Or.inr (hhead y hy), hpost⟩, ?_⟩
        intro x hx y hy
        simp only [List.head?_cons, Option.mem_def, Option.some.injEq] at hy
        subst hy
        rcases hlink x hx p (by simp) with hxa | hpa
        · exact Or.inl hxa
        · rw [hp] at hpa
          exact absurd hpa (by simp)
    · rw [if_neg hp]
      have hpa : p.allocated = true := by
        cases hpb : p.allocated
        · exact absurd hpb hp
        · rfl
      refine ⟨?_, ?_, ?_⟩
      · rw [total_bytes_append, total_bytes_cons, total_bytes_append]
        omega
      · intro x hx
        rcases List.mem_append.mp hx with hx | hx
        · exact hszpre x hx
        · rcases List.mem_cons.mp hx with rfl | hx
          · exact hsz1
          · exact hszpost x hx
      · refine List.chain'_append.mpr
          ⟨hpre, List.chain'_cons'.mpr ⟨fun y hy => Or.inr (hhead y hy), hpost⟩, ?_⟩
        intro x hx y hy
        rw [List.getLast?_concat] at hx
        simp only [Option.mem_def, Option.some.injEq] at hx
        subst hx
        simp only [List.head?_cons, Option.mem_def, Option.some.injEq] at hy
        subst hy
        exact Or.inl hpa

/-- Invariant preservation by the whole myfree mutation phase: freeing an
allocated chunk of a well-formed chain (marking it free, coalescing forward
then backward) yields a well-formed chain. -/
theorem free_chunk_inv (pre : Heap) (c : chunk_t) (post : Heap)
    (hwf : wf_heap (pre ++ c :: post)) (_hallocd : c.allocated = true) :
    wf_heap (free_chunk pre c post) := by
  obtain ⟨htot, hsz, hadj⟩ := hwf
  rw [total_bytes_append, total_bytes_cons] at htot
  have hszpre : ∀ x ∈ pre, x.size % ALIGNMENT = 0 := fun x hx => hsz x (by simp [hx])
  have hszc : c.size % ALIGNMENT = 0 := hsz c (by simp)
  have hszpost : ∀ x ∈ post, x.size % ALIGNMENT = 0 := fun x hx => hsz x (by simp [hx])
  obtain ⟨hpre, hcpost, _⟩ := List.chain'_append.mp hadj
  have hpost : post.Chain' not_both_free := (List.chain'_cons'.mp hcpost).2
  unfold free_chunk
  rcases post with _ | ⟨n, rest⟩
  · have hfw : free_fwd c [] = (⟨c.size, false⟩, []) := rfl
    rw [hfw]
    exact free_back_inv pre ⟨c.size, false⟩ [] rfl hszc hszpre (by simp) hpre
      List.chain'_nil (by simp) htot
  · obtain ⟨hreln, hrest⟩ := List.chain'_cons'.mp hpost
    by_cases hn : n.allocated = false
    · have hfw : free_fwd c (n :: rest) = (⟨c.size + HDR + n.size, false⟩, rest) := by
        simp [free_fwd, hn]
      rw [hfw]
      have hheadrest : ∀ y ∈ rest.head?, y.allocated = true := by
        intro y hy
        rcases hreln y hy with hna | hya
        · rw [hn] at hna
          exact absurd hna (by simp)
        · exact hya
      refine free_back_inv pre _ rest rfl ?_ hszpre
        (fun x hx => hszpost x (by simp [hx])) hpre hrest hheadrest ?_
      · show (c.size + HDR + n.size) % ALIGNMENT = 0
        have hszn := hszpost n (by simp)
        unfold ALIGNMENT HDR at *
        omega
      · rw [total_bytes_cons] at htot
        dsimp only
        omega
    · have hfw : free_fwd c (n :: rest) = (⟨c.size, false⟩, n :: rest) := by
        simp [free_fwd, hn]
      rw [hfw]
      have hna : n.allocated = true := by
        cases hnb : n.allocated
        · exact absurd hnb hn
        · rfl
      refine free_back_inv pre _ (n :: rest) rfl hszc hszpre hszpost hpre hpost ?_ ?_
      · intro y hy
        simp only [List.head?_cons, Option.mem_def, Option.some.injEq] at hy
        subst hy
        exact hna
      · dsimp only
        exact htot

set_option maxRecDepth 4000 in
set_option maxHeartbeats 1600000 in
/-- Counterexample to C1: the unqualified claim fails for a deallocate call
that returns normally on a forged header.  Reachable trace: `mymalloc 100`
on the fresh arena leaves an allocated chunk with payload bytes [16, 120)
and the remaining free chunk of size 3960 at offset 120; the client stores
the 8-byte value 8 at bytes [112, 120) of its own payload (a store the
contract permits), forging a header at offset 112 whose `allocated` field,
bytes [120, 124), aliases the nonzero low bytes of the real size field.
`myfree` of pointer offset 128 then passes every validation check of lines
233-262 and returns normally (`.ok`), but the store `chunk->allocated = 0`
of line 265 zeroes the real header's size field at offset 120: afterwards
the chunks reachable by walking headers from the arena base are the
allocated 104-byte chunk followed by size-0 free chunks from offset 120 on,
so the walk neither tiles the arena (it ends past `base + MEMLENGTH`) nor
avoids adjacent free chunks — `wf_heap` fails after a normally returning
deallocation. -/
theorem C1_counterexample :
    (myfree_raw mem_forged (some 128)).1 = .ok ∧
    ¬ wf_heap (chain_walk (mem_of_bytes (myfree_raw mem_forged (some 128)).2)
        MEMLENGTH 0) ∧
    hdr_at (myfree_raw mem_forged (some 128)).2 120 = ⟨0, false⟩ ∧
    hdr_at (myfree_raw mem_forged (some 128)).2 136 = ⟨0, false⟩ := by
  have hmem : (myfree_raw mem_forged (some 128)).2 =
      write64 (write32 mem_forged 120 0) 112 24 := by rfl
  refine ⟨by decide, ?_, ?_, ?_⟩
  · rw [hmem]
    decide
  · rw [hmem]
    decide
  · rw [hmem]
    decide

/-- Claim C1 as amended: the initial arena chain is well formed; after every
mymalloc mutation that returns normally, and after every myfree mutation
that returns normally on a pointer whose presumed header is a genuine chunk
of the arena chain (as holds for every pointer obtained from mymalloc), the
chunks reachable by walking headers from the arena base tile the whole
arena exactly (no gaps, no overlaps, ending exactly at `base + MEMLENGTH`),
every chunk's payload size is a multiple of ALIGNMENT, and no two
address-adjacent chunks are both marked free.  The restriction on myfree is
necessary: a deallocation can also return normally on a forged
validation-passing header inside a payload, and such a call corrupts a real
header and breaks the invariants (see the counterexample above). -/
theorem C1_invariants :
    wf_heap (init_heap uninit_state).heap ∧
    (∀ (s : Nat) (h : Heap) (i : Nat) (h2 : Heap),
      wf_heap h → malloc_scan (padded_size s) h = some (i, h2) → wf_heap h2) ∧
    (∀ (pre : Heap) (c : chunk_t) (post : Heap),
      wf_heap (pre ++ c :: post) → c.allocated = true →
      wf_heap (free_chunk pre c post)) := by
  refine ⟨by decide, ?_, free_chunk_inv⟩
  intro s h i h2 hwf hm
  obtain ⟨htot, hsz, hadj⟩ := hwf
  obtain ⟨ht, hs2, hadj2, _⟩ :=
    malloc_scan_inv (padded_size s) (padded_size_mod s) h i h2 hsz hadj hm
  exact ⟨by rw [ht, htot], hs2, hadj2⟩

/-- Witness for C1: allocating 32 bytes from the freshly initialized arena
yields a well-formed chain, and freeing that chunk again yields a
well-formed chain. -/
theorem C1_witness :
    wf_heap ([⟨32, true⟩, ⟨4032, false⟩] : Heap) ∧
    wf_heap (free_chunk ([] : Heap) ⟨32, true⟩ ([⟨4032, false⟩] : Heap)) :=
  ⟨C1_invariants.2.1 32 ([⟨4080, false⟩] : Heap) 0 ([⟨32, true⟩, ⟨4032, false⟩] : Heap)
      (by decide) (by decide),
   C1_invariants.2.2 ([] : Heap) ⟨32, true⟩ ([⟨4032, false⟩] : Heap) (by decide) rfl⟩
